import Mathlib

/-!
Verification of the Catalitium job-board core (`app.py`): a shallow embedding
of the query-normalization, enrichment, filtering and pagination pipeline,
followed by theorems settling the specification's claims.

Modelling conventions:
* Python strings are Lean `String`s viewed as `List Char`; the Python string
  methods used by the source (`strip`, `lower`, `upper`, `replace`,
  `isalpha`, `isdigit`, `in`, slicing) are modelled over ASCII, which covers
  every character class the source's regexes use on the data of interest.
* Python `int` is Lean `Int`; money values parsed by the code are
  nonnegative, and the parsers below return `Int`.
* Python `None` is `Option.none`; a Python value used in boolean context is
  "truthy" iff it is neither `None` nor `0` nor the empty string.
* The source file on disk is UTF-8 that went through a cp1252 round-trip
  (e.g. the en-dash of the range regex and the `ö` of the country table are
  double-encoded); the embedding uses the decoded original characters.
* Python dicts are modelled as association lists with insert-overwrite
  (`insertA`) and `setdefault` (`setdefaultA`); only lookup and emptiness of
  these dicts are observed by the code.
-/

namespace Catalitium

/-- Python `\s` (ASCII whitespace as used by `str.strip`, `re` `\s`). -/
def isPySpace (c : Char) : Bool :=
  c = ' ' || c = '\t' || c = '\n' || c = '\r' || c = Char.ofNat 11 || c = Char.ofNat 12

/-- Python `str.strip()` on a character list. -/
def pyStripL (l : List Char) : List Char :=
  ((l.dropWhile isPySpace).reverse.dropWhile isPySpace).reverse

/-- Python `str.strip()`. -/
def pstrip (s : String) : String := String.mk (pyStripL s.toList)

/-- Python `str.lower()` (ASCII). -/
def pyLower (s : String) : String := String.mk (s.toList.map Char.toLower)

/-- Python `str.upper()` (ASCII). -/
def pyUpper (s : String) : String := String.mk (s.toList.map Char.toUpper)

/-- Boolean "is `pat` a prefix of `l`" (the scan Python's `in` performs). -/
def prefixB : List Char → List Char → Bool
  | [], _ => true
  | _ :: _, [] => false
  | a :: as, b :: bs => a == b && prefixB as bs

/-- Python `pat in text` (substring containment) on character lists. -/
def substrB (pat : List Char) : List Char → Bool
  | [] => pat.isEmpty
  | c :: cs => prefixB pat (c :: cs) || substrB pat cs

/-- `COUNTRY_NORM` (app.py lines 75-85), in dict insertion order. -/
def COUNTRY_NORM : List (String × String) :=
  [("deutschland", "DE"), ("germany", "DE"), ("deu", "DE"), ("de", "DE"),
   ("switzerland", "CH"), ("schweiz", "CH"), ("suisse", "CH"), ("svizzera", "CH"), ("ch", "CH"),
   ("austria", "AT"), ("österreich", "AT"), ("at", "AT"),
   ("europe", "EU"), ("eu", "EU"),
   ("uk", "UK"), ("gb", "UK"), ("england", "UK"), ("united kingdom", "UK"),
   ("usa", "US"), ("united states", "US"), ("america", "US"), ("us", "US"),
   ("spain", "ES"), ("es", "ES"), ("france", "FR"), ("fr", "FR"), ("italy", "IT"), ("it", "IT"),
   ("netherlands", "NL"), ("nl", "NL"), ("belgium", "BE"), ("be", "BE"), ("sweden", "SE"), ("se", "SE"),
   ("poland", "PL"), ("colombia", "CO"), ("mexico", "MX")]

/-- `TITLE_SYNONYMS` (app.py lines 87-94), in dict insertion order. -/
def TITLE_SYNONYMS : List (String × String) :=
  [("swe", "software engineer"), ("software eng", "software engineer"), ("sw eng", "software engineer"),
   ("frontend", "front end"), ("front-end", "front end"), ("backend", "back end"), ("back-end", "back end"),
   ("fullstack", "full stack"), ("full-stack", "full stack"),
   ("pm", "product manager"), ("prod mgr", "product manager"), ("product owner", "product manager"),
   ("ds", "data scientist"), ("ml", "machine learning"), ("mle", "machine learning engineer"),
   ("sre", "site reliability engineer"), ("devops", "devops"), ("sec eng", "security engineer"),
   ("infosec", "security")]

/-- `normalize_country` (app.py lines 96-103). -/
def normalize_country (q : String) : String :=
  if q = "" then ""
  else
    let t := pyLower (pstrip q)
    match COUNTRY_NORM.find? (fun p => p.1 == t) with
    | some p => p.2
    | none =>
      if t.length = 2 && t.toList.all Char.isAlpha then pyUpper t
      else
        match COUNTRY_NORM.find? (fun p => substrB p.1.toList t.toList) with
        | some p => p.2
        | none => pstrip q

/-- Python `str.replace(pat, rep)`: leftmost, non-overlapping, replace all.
`fuel` bounds the recursion; `fuel = l.length` is always enough because every
step consumes at least one character of `l` (the source's patterns are
nonempty). -/
def replaceAllAux : Nat → List Char → List Char → List Char → List Char
  | 0, _, _, l => l
  | _ + 1, _, _, [] => []
  | fuel + 1, pat, rep, c :: cs =>
    match pat with
    | [] => c :: cs
    | _ :: _ =>
      if prefixB pat (c :: cs) then rep ++ replaceAllAux fuel pat rep ((c :: cs).drop pat.length)
      else c :: replaceAllAux fuel pat rep cs

/-- Python `str.replace` on lists. -/
def replaceAll (pat rep l : List Char) : List Char := replaceAllAux l.length pat rep l

/-- Python `\w` (ASCII word character). -/
def isWordChar (c : Char) : Bool := c.isAlphanum || c = '_'

/-- `re.sub(r"\s+", " ", s)`: collapse every whitespace run to one space. -/
def collapseWsAux : Nat → List Char → List Char
  | 0, l => l
  | _ + 1, [] => []
  | fuel + 1, c :: cs =>
    if isPySpace c then ' ' :: collapseWsAux fuel (cs.dropWhile isPySpace)
    else c :: collapseWsAux fuel cs

/-- `normalize_title` (app.py lines 105-113). -/
def normalize_title (q : String) : String :=
  if q = "" then ""
  else
    let s0 := (pyLower q).toList
    let s1 := TITLE_SYNONYMS.foldl
      (fun s kv => if substrB kv.1.toList s then replaceAll kv.1.toList kv.2.toList s else s) s0
    let s2 := s1.map (fun c => if isWordChar c || isPySpace c || c = '-' || c = '/' then c else ' ')
    String.mk (pyStripL (collapseWsAux s2.length s2))

/-- The character class `[\d,.\s]` of the money regexes. -/
def isMoneyClass (c : Char) : Bool := c.isDigit || c = ',' || c = '.' || isPySpace c

/-- Match `\d[\d,.\s]*k?` (case-insensitive `k`) at the head of `l`; returns
the matched span and the rest.  The character class is disjoint from `k`/`K`,
so the greedy run needs no backtracking. -/
def matchMoneyAt : List Char → Option (List Char × List Char)
  | [] => none
  | c :: cs =>
    if c.isDigit then
      let run := cs.takeWhile isMoneyClass
      let rest := cs.dropWhile isMoneyClass
      match rest with
      | k :: rs => if k = 'k' || k = 'K' then some (c :: (run ++ [k]), rs) else some (c :: run, rest)
      | [] => some (c :: run, [])
    else none

/-- `re.findall(r'(?i)\d[\d,.\s]*k?+', text)`: all money spans, left to
right, the scan resuming after each match.  `fuel = l.length` suffices since
each step consumes at least one character. -/
def moneyMatchesAux : Nat → List Char → List (List Char)
  | 0, _ => []
  | _ + 1, [] => []
  | fuel + 1, c :: cs =>
    if c.isDigit then
      match matchMoneyAt (c :: cs) with
      | some (m, rest) => m :: moneyMatchesAux fuel rest
      | none => moneyMatchesAux fuel cs
    else moneyMatchesAux fuel cs

/-- All money spans of a character list. -/
def moneyMatches (l : List Char) : List (List Char) := moneyMatchesAux l.length l

/-- Value of an ASCII digit string (Python `int(...)`). -/
def digitsVal (l : List Char) : Int := l.foldl (fun n c => 10 * n + (c.toNat - 48 : Int)) 0

/-- The cleaning step of `parse_money_numbers` (app.py lines 128-132) on one
raw match: lowercase, drop commas and spaces, detect a trailing `k`
(multiplier 1000), strip trailing `k`s, drop periods, and keep the value only
if the residue is a nonempty digit string. -/
def cleanMoney (raw : List Char) : Option Int :=
  let clean := (raw.map Char.toLower).filter (fun c => !(c == ',' || c == ' '))
  let mult : Int := if clean.getLast? = some 'k' then 1000 else 1
  let clean2 := ((clean.reverse.dropWhile (· == 'k')).reverse).filter (fun c => !(c == '.'))
  if clean2 ≠ [] && clean2.all Char.isDigit then some (digitsVal clean2 * mult) else none

/-- `parse_money_numbers` (app.py lines 124-133). -/
def parse_money_numbers (text : String) : List Int :=
  if text = "" then [] else (moneyMatches text.toList).filterMap cleanMoney

/-- The range separator class of the source's first salary-query regex:
hyphen or en-dash (decoded from the file's double-encoded bytes). -/
def isDashChar (c : Char) : Bool := c = '-' || c = '–'

/-- Match pattern 1, `(\d[\d,.\s]*k?)\s*[-–]\s*(\d[\d,.\s]*k?)`, at the head
of `l`; returns (group 1, group 2, rest). -/
def matchRangeAt (l : List Char) : Option (List Char × List Char × List Char) :=
  match matchMoneyAt l with
  | none => none
  | some (g1, r1) =>
    match r1.dropWhile isPySpace with
    | [] => none
    | d :: r3 =>
      if isDashChar d then
        match matchMoneyAt (r3.dropWhile isPySpace) with
        | some (g2, r5) => some (g1, g2, r5)
        | none => none
      else none

/-- `re.search` for pattern 1: leftmost match, returning the text before the
match, the two groups, and the text after the match. -/
def searchRange : List Char → Option (List Char × List Char × List Char × List Char)
  | [] => none
  | c :: cs =>
    match matchRangeAt (c :: cs) with
    | some (g1, g2, rest) => some ([], g1, g2, rest)
    | none =>
      match searchRange cs with
      | some (pre, g1, g2, rest) => some (c :: pre, g1, g2, rest)
      | none => none

/-- Match `op\s*=?\s*(\d[\d,.\s]*k?)` (patterns 2 and 3, with `op` `>` or
`<`) at the head of `l`; returns (group, rest). -/
def matchCmpAt (op : Char) (l : List Char) : Option (List Char × List Char) :=
  match l with
  | [] => none
  | c :: r1 =>
    if c = op then
      let r2 := r1.dropWhile isPySpace
      let r3 := match r2 with
        | '=' :: t => t
        | _ => r2
      matchMoneyAt (r3.dropWhile isPySpace)
    else none

/-- `re.search` for patterns 2/3: leftmost match. -/
def searchCmp (op : Char) : List Char → Option (List Char × List Char × List Char)
  | [] => none
  | c :: cs =>
    match matchCmpAt op (c :: cs) with
    | some (g, rest) => some ([], g, rest)
    | none =>
      match searchCmp op cs with
      | some (pre, g, rest) => some (c :: pre, g, rest)
      | none => none

/-- `re.search` for pattern 4, a bare `(\d[\d,.\s]*k?)`: leftmost match. -/
def searchBare : List Char → Option (List Char × List Char × List Char)
  | [] => none
  | c :: cs =>
    match matchMoneyAt (c :: cs) with
    | some (g, rest) => some ([], g, rest)
    | none =>
      match searchBare cs with
      | some (pre, g, rest) => some (c :: pre, g, rest)
      | none => none

/-- `parse_salary_query` (app.py lines 140-165): four patterns tried in
priority order, the matched span excised from the text and the result
stripped. -/
def parse_salary_query (q : String) : String × Option Int × Option Int :=
  if q = "" then ("", none, none)
  else
    let s := pyStripL q.toList
    match searchRange s with
    | some (pre, g1, g2, rest) =>
      let low := parse_money_numbers (String.mk g1)
      let high := parse_money_numbers (String.mk g2)
      (String.mk (pyStripL (pre ++ rest)), low.head?, high.getLast?)
    | none =>
      match searchCmp '>' s with
      | some (pre, g, rest) =>
        let v := parse_money_numbers (String.mk g)
        (String.mk (pyStripL (pre ++ rest)), v.head?, none)
      | none =>
        match searchCmp '<' s with
        | some (pre, g, rest) =>
          let v := parse_money_numbers (String.mk g)
          (String.mk (pyStripL (pre ++ rest)), none, v.head?)
        | none =>
          match searchBare s with
          | some (pre, g, rest) =>
            let v := parse_money_numbers (String.mk g)
            (String.mk (pyStripL (pre ++ rest)), v.head?, none)
          | none => (String.mk s, none, none)

/-- A job listing as built by `read_jobs_csv` (app.py lines 287-300) and
possibly extended by enrichment.  The enrichment fields start out absent
(`none`); `ref_currency`/`ref_match_label` are `Option String` because the
key is absent before enrichment. -/
structure Job where
  id : String := ""
  title : String := ""
  company : String := ""
  location : String := ""
  description : String := ""
  date_posted : String := ""
  salary_min : Option Int := none
  salary_max : Option Int := none
  country_code : String := ""
  City : String := ""
  Country : String := ""
  ref_median : Option Int := none
  ref_min : Option Int := none
  ref_currency : Option String := none
  ref_match_label : Option String := none
  ref_salary_min : Option Int := none
  ref_salary_max : Option Int := none
deriving DecidableEq, Repr

/-- Python truthiness of an optional integer (`None` and `0` are falsy). -/
def truthyInt : Option Int → Bool
  | none => false
  | some v => v != 0

/-- `job_effective_salary_range` (app.py lines 304-309). -/
def job_effective_salary_range (j : Job) : Option Int × Option Int :=
  if truthyInt j.salary_min || truthyInt j.salary_max then (j.salary_min, j.salary_max)
  else if truthyInt j.ref_salary_min || truthyInt j.ref_salary_max then
    (j.ref_salary_min, j.ref_salary_max)
  else (none, none)

/-- `_tokens` (app.py line 311): lowercase, then the maximal runs of
word-or-plus characters (what `re.split(r"[^\w+]+", ...)` leaves after
dropping empty pieces). -/
def isWordPlus (c : Char) : Bool := isWordChar c || c = '+'

/-- Maximal `isWordPlus` runs of a character list (`fuel = l.length`
suffices: each step consumes at least one character). -/
def wordRunsAux : Nat → List Char → List (List Char)
  | 0, _ => []
  | _ + 1, [] => []
  | fuel + 1, c :: cs =>
    if isWordPlus c then (c :: cs.takeWhile isWordPlus) :: wordRunsAux fuel (cs.dropWhile isWordPlus)
    else wordRunsAux fuel cs

/-- `_tokens` on a string. -/
def py_tokens (text : String) : List (List Char) :=
  wordRunsAux (pyLower text).toList.length (pyLower text).toList

/-- `_fuzzy_match` (app.py lines 313-317). -/
def fuzzy_match (needle hay : String) : Bool :=
  if needle = "" then true
  else (py_tokens needle).all (fun tok => substrB tok (pyLower hay).toList)

/-- The title test of `filter_jobs` (app.py line 327): fail only when the
normalized query is nonempty and the fuzzy match fails. -/
def titleOk (tq : String) (r : Job) : Bool :=
  let text := r.title ++ " " ++ r.company ++ " " ++ r.description
  !(tq != "" && !fuzzy_match tq text)

/-- The country test of `filter_jobs` (app.py line 328): fail only when the
normalized country is nonempty and is not a case-insensitive substring of the
location. -/
def countryOk (cq : String) (r : Job) : Bool :=
  !(cq != "" && !substrB (pyLower cq).toList (pyLower r.location).toList)

/-- The salary test of `filter_jobs` (app.py lines 329-336); vacuously true
when neither bound is requested. -/
def salaryOk (r : Job) (sal_min_req sal_max_req : Option Int) : Bool :=
  if sal_min_req.isSome || sal_max_req.isSome then
    let (jmin, jmax) := job_effective_salary_range r
    if jmin.isNone && jmax.isNone then false
    else
      let jmin' := jmin.getD 0
      let jmax' := match jmax with
        | none => max jmin' jmin'
        | some v => v
      (match sal_min_req with
       | none => true
       | some f => !(jmax' < f)) &&
      (match sal_max_req with
       | none => true
       | some c => !(jmin' > c))
  else true

/-- The per-row predicate of `filter_jobs`' loop (app.py lines 323-337). -/
def jobOk (tq cq : String) (sal_min_req sal_max_req : Option Int) (r : Job) : Bool :=
  titleOk tq r && countryOk cq r && salaryOk r sal_min_req sal_max_req

/-- `filter_jobs` (app.py lines 319-338). -/
def filter_jobs (rows : List Job) (title_q country_q : String)
    (sal_min_req sal_max_req : Option Int) : List Job :=
  rows.filter (jobOk (normalize_title title_q) (normalize_country country_q) sal_min_req sal_max_req)

/-- One row of the salary-reference CSV as seen by `read_salary_reference`
(app.py lines 197-207), field names as in the file's headers.
`MedianSalary`/`MinSalary` hold the result of the `int(float(...))` parse of
the raw cell; a missing cell or a parse failure is `none` (the numeric text
parsing itself is plumbing outside the claims). -/
structure SalaryRow where
  City : String := ""
  Country : String := ""
  CurrencyTicker : String := ""
  MedianSalary : Option Int := none
  MinSalary : Option Int := none
deriving DecidableEq, Repr

/-- A value of the salary-reference dict (app.py lines 215-227). -/
structure RefEntry where
  median : Option Int
  min : Option Int
  currency : String
  label : String
deriving DecidableEq, Repr

/-- Keys of the reference dict: `(city, country)` with the city component
`some` for per-city entries (possibly `some ""`) and `none` for the
per-country fallback. -/
abbrev RefKey := Option String × String

/-- The reference dict. -/
abbrev RefMap := List (RefKey × RefEntry)

/-- Python `dict[k] = v`: overwrite in place, else append. -/
def insertA (m : RefMap) (k : RefKey) (v : RefEntry) : RefMap :=
  match m with
  | [] => [(k, v)]
  | (k', v') :: t => if k' = k then (k, v) :: t else (k', v') :: insertA t k v

/-- Python `dict.setdefault(k, v)`: keep an existing entry, else append. -/
def setdefaultA (m : RefMap) (k : RefKey) (v : RefEntry) : RefMap :=
  match m with
  | [] => [(k, v)]
  | (k', v') :: t => if k' = k then (k', v') :: t else (k', v') :: setdefaultA t k v

/-- Python `dict.get(k)` / `k in dict`. -/
def lookupA (m : RefMap) (k : RefKey) : Option RefEntry :=
  (m.find? (fun p => p.1 = k)).map (·.2)

/-- The per-city entry built for a row (app.py lines 215-220). -/
def cityEntry (r : SalaryRow) : RefEntry :=
  { median := r.MedianSalary, min := r.MinSalary,
    currency := if pyUpper (pstrip r.CurrencyTicker) = "" then "USD"
                else pyUpper (pstrip r.CurrencyTicker),
    label := if pstrip r.City = "" then pstrip r.Country else pstrip r.City }

/-- The per-country fallback entry built for a row (app.py lines 222-227). -/
def fallbackEntry (r : SalaryRow) : RefEntry :=
  { median := r.MedianSalary, min := r.MinSalary,
    currency := if pyUpper (pstrip r.CurrencyTicker) = "" then "USD"
                else pyUpper (pstrip r.CurrencyTicker),
    label := pstrip r.Country }

/-- Lowercased, stripped city of a row. -/
def rowCity (r : SalaryRow) : String := pyLower (pstrip r.City)

/-- Lowercased, stripped country of a row. -/
def rowCountry (r : SalaryRow) : String := pyLower (pstrip r.Country)

/-- The per-row update of `read_salary_reference`'s loop (app.py lines
197-227): skip rows with an empty country, insert the per-city entry
unconditionally, insert the per-country fallback only if absent. -/
def refStep (m : RefMap) (r : SalaryRow) : RefMap :=
  if rowCountry r = "" then m
  else setdefaultA (insertA m (some (rowCity r), rowCountry r) (cityEntry r))
        (none, rowCountry r) (fallbackEntry r)

/-- The map built by `read_salary_reference` from a row sequence (app.py
lines 194-228); the file/mtime caching around it is plumbing outside the
claims. -/
def read_salary_reference (rows : List SalaryRow) : RefMap := rows.foldl refStep []

/-- The exact-then-fallback lookup used by `enrich_with_salary_reference`
(app.py lines 248-251). -/
def lookup_ref (m : RefMap) (city country : String) : Option RefEntry :=
  (lookupA m (some city, country)).or (lookupA m (none, country))

/-- The per-job enrichment of `enrich_with_salary_reference`'s loop (app.py
lines 243-261). -/
def enrichJob (m : RefMap) (j : Job) : Job :=
  match lookup_ref m (pyLower (pstrip j.City)) (pyLower (pstrip j.Country)) with
  | none => j
  | some ref =>
    { j with ref_median := ref.median, ref_min := ref.min,
             ref_currency := some ref.currency, ref_match_label := some ref.label,
             ref_salary_min := ref.min, ref_salary_max := ref.median }

/-- `enrich_with_salary_reference` (app.py lines 232-263), the reference map
passed explicitly. -/
def enrich_with_salary_reference (m : RefMap) (rows : List Job) : List Job :=
  if m = [] then rows else rows.map (enrichJob m)

/-- `PER_PAGE_MAX` (app.py line 19). -/
def PER_PAGE_MAX : Int := 100

/-- The dict returned by `paginate` (app.py lines 357-365). -/
structure PageResult (α : Type) where
  items : List α
  page : Int
  per_page : Int
  total : Int
  pages : Int
  has_prev : Bool
  has_next : Bool

/-- `paginate` (app.py lines 349-365).  The Python slice `items[start:end]`
has `0 ≤ start ≤ end` here, so it is `drop start` then `take (end-start)`. -/
def paginate {α : Type} (items : List α) (page per_page : Int) : PageResult α :=
  let total : Int := items.length
  let page := if page < 1 then 1 else page
  let per_page := min (max 1 per_page) PER_PAGE_MAX
  let start := (page - 1) * per_page
  let sliced := (items.drop start.toNat).take per_page.toNat
  let pages := (total + per_page - 1) / per_page
  { items := sliced, page := page, per_page := per_page, total := total,
    pages := pages, has_prev := decide (page > 1), has_next := decide (page < pages) }

/-- Modelled from claim C2's words: the effective range "uses the listing's
own salary_min/salary_max when either is truthy, else the reference-derived
range" — with no truthiness condition on the reference pair. -/
def claimEffectiveRange (j : Job) : Option Int × Option Int :=
  if truthyInt j.salary_min || truthyInt j.salary_max then (j.salary_min, j.salary_max)
  else (j.ref_salary_min, j.ref_salary_max)

/-- Modelled from claim C2's words: fail when the effective range is entirely
absent; otherwise fill an absent low end with 0 and an absent high end with
the low end, and pass iff high ≥ floor (when given) and low ≤ ceiling (when
given). -/
def claimSalaryPass (j : Job) (sfloor sceiling : Option Int) : Bool :=
  let lo := (claimEffectiveRange j).1
  let hi := (claimEffectiveRange j).2
  if lo.isNone && hi.isNone then false
  else
    let lo' := lo.getD 0
    let hi' := hi.getD lo'
    (match sfloor with
     | none => true
     | some f => decide (f ≤ hi')) &&
    (match sceiling with
     | none => true
     | some c => decide (lo' ≤ c))

/-- The amended claim C2's salary test, in the claim's own shape: vacuous
when no bound is requested; the effective range is the one the code computes
(own pair when either own field is truthy, else the reference pair when
either reference field is truthy, else entirely absent); fill and compare as
the claim words it. -/
def specSalaryPass (j : Job) (sfloor sceiling : Option Int) : Bool :=
  if sfloor.isNone && sceiling.isNone then true
  else
    let lo := (job_effective_salary_range j).1
    let hi := (job_effective_salary_range j).2
    if lo.isNone && hi.isNone then false
    else
      let lo' := lo.getD 0
      let hi' := hi.getD lo'
      (match sfloor with
       | none => true
       | some f => decide (f ≤ hi')) &&
      (match sceiling with
       | none => true
       | some c => decide (lo' ≤ c))

/-- The row sequence of claim C3's example: a Berlin/DE row, then an
empty-city DE row. -/
def berlinRows : List SalaryRow :=
  [{ City := "Berlin", Country := "DE", MedianSalary := some 6000 },
   { City := "", Country := "DE", MedianSalary := some 5000 }]

/-! ## Helper lemmas -/

theorem prefixB_iff (pat l : List Char) : prefixB pat l = true ↔ pat <+: l := by
  induction pat generalizing l with
  | nil => simp [prefixB, List.nil_prefix]
  | cons a as ih =>
    cases l with
    | nil => simp [prefixB]
    | cons b bs => simp [prefixB, List.cons_prefix_cons, ih]

theorem substrB_iff (pat l : List Char) : substrB pat l = true ↔ pat <:+: l := by
  induction l with
  | nil =>
    simp only [substrB, List.isEmpty_iff]
    constructor
    · rintro rfl; exact List.nil_infix
    · rintro ⟨s, t, h⟩
      exact (List.append_eq_nil.mp ((List.append_eq_nil.mp h).1)).2
  | cons c cs ih =>
    simp [substrB, prefixB_iff, ih, List.infix_cons_iff]

theorem lookupA_cons (k0 : RefKey) (v0 : RefEntry) (t : RefMap) (k' : RefKey) :
    lookupA ((k0, v0) :: t) k' = if k0 = k' then some v0 else lookupA t k' := by
  by_cases h : k0 = k' <;> simp [lookupA, List.find?_cons, h]

theorem lookupA_insertA (m : RefMap) (k : RefKey) (v : RefEntry) (k' : RefKey) :
    lookupA (insertA m k v) k' = if k = k' then some v else lookupA m k' := by
  induction m with
  | nil => simp only [insertA, lookupA_cons]
  | cons p t ih =>
    obtain ⟨k0, v0⟩ := p
    by_cases h0 : k0 = k
    · subst h0
      simp only [insertA, if_pos rfl]
      by_cases h : k0 = k' <;> simp [h, lookupA_cons]
    · simp only [insertA, if_neg h0, lookupA_cons, ih]
      by_cases h1 : k0 = k' <;> by_cases h2 : k = k' <;> simp_all

theorem lookupA_setdefaultA (m : RefMap) (k : RefKey) (v : RefEntry) (k' : RefKey) :
    lookupA (setdefaultA m k v) k' =
      if k = k' then some ((lookupA m k).getD v) else lookupA m k' := by
  induction m with
  | nil => by_cases h : k = k' <;> simp [setdefaultA, lookupA_cons, lookupA, h]
  | cons p t ih =>
    obtain ⟨k0, v0⟩ := p
    by_cases h0 : k0 = k
    · subst h0
      simp only [setdefaultA, if_pos rfl, lookupA_cons]
      by_cases h : k0 = k' <;> simp_all [lookupA_cons]
    · simp only [setdefaultA, if_neg h0, lookupA_cons, ih]
      by_cases h1 : k0 = k' <;> by_cases h2 : k = k' <;> simp_all [lookupA_cons]

theorem lookupA_refStep_city (acc : RefMap) (r : SalaryRow) (c k : String) (hk : k ≠ "") :
    lookupA (refStep acc r) (some c, k) =
      if rowCity r = c ∧ rowCountry r = k then some (cityEntry r)
      else lookupA acc (some c, k) := by
  unfold refStep
  by_cases h0 : rowCountry r = ""
  · rw [if_pos h0, if_neg]
    rintro ⟨-, h2⟩
    exact hk (h2 ▸ h0)
  · rw [if_neg h0, lookupA_setdefaultA,
      if_neg (by simp : ¬(((none : Option String), rowCountry r) = (some c, k))),
      lookupA_insertA]
    by_cases h : rowCity r = c ∧ rowCountry r = k
    · rw [if_pos (by simp [h.1, h.2]), if_pos h]
    · rw [if_neg (by simp only [Prod.mk.injEq, Option.some.injEq]; exact h), if_neg h]

theorem lookupA_foldl_city (rows : List SalaryRow) (acc : RefMap) (c k : String) (hk : k ≠ "") :
    lookupA (rows.foldl refStep acc) (some c, k) =
      ((rows.reverse.find? (fun r => decide (rowCity r = c ∧ rowCountry r = k))).map
        cityEntry).or (lookupA acc (some c, k)) := by
  induction rows generalizing acc with
  | nil => simp
  | cons r rs ih =>
    rw [List.foldl_cons, ih (refStep acc r), List.reverse_cons, List.find?_append]
    cases hf : rs.reverse.find? (fun r => decide (rowCity r = c ∧ rowCountry r = k)) with
    | some r' => simp [hf]
    | none =>
      rw [lookupA_refStep_city acc r c k hk]
      by_cases h : rowCity r = c ∧ rowCountry r = k <;> simp [hf, List.find?, h]

theorem lookupA_refStep_fallback (acc : RefMap) (r : SalaryRow) (k : String) :
    lookupA (refStep acc r) (none, k) =
      if rowCountry r = k ∧ k ≠ "" then (lookupA acc (none, k)).or (some (fallbackEntry r))
      else lookupA acc (none, k) := by
  unfold refStep
  by_cases h0 : rowCountry r = ""
  · rw [if_pos h0, if_neg]
    rintro ⟨h1, h2⟩
    exact h2 (h1 ▸ h0)
  · rw [if_neg h0]
    by_cases h : rowCountry r = k
    · rw [h] at h0 ⊢
      rw [lookupA_setdefaultA, if_pos rfl, lookupA_insertA, if_neg (by simp),
        if_pos ⟨rfl, h0⟩]
      cases hacc : lookupA acc (none, k) <;> simp [Option.or]
    · rw [lookupA_setdefaultA, if_neg (by simp [h]), lookupA_insertA, if_neg (by simp),
        if_neg (fun hc => h hc.1)]

theorem lookupA_foldl_fallback (rows : List SalaryRow) (acc : RefMap) (k : String) :
    lookupA (rows.foldl refStep acc) (none, k) =
      (lookupA acc (none, k)).or
        ((rows.find? (fun r => decide (rowCountry r = k ∧ k ≠ ""))).map fallbackEntry) := by
  induction rows generalizing acc with
  | nil => simp
  | cons r rs ih =>
    rw [List.foldl_cons, ih (refStep acc r), lookupA_refStep_fallback]
    by_cases h : rowCountry r = k ∧ k ≠ ""
    · rw [if_pos h]
      rw [List.find?_cons_of_pos _ (by simp [h.1, h.2])]
      cases hacc : lookupA acc (none, k) <;> simp [Option.or]
    · rw [if_neg h]
      rw [List.find?_cons_of_neg _ (by simpa using h)]

/-! ## Claim theorems -/

/-- C1 (counterexample): the claim asserts `normalizeCountry("Atlantis") =
"Atlantis"` (unnormalized passthrough), but the code's substring scan finds
the table token `"at"` inside `"atlantis"` and returns `"AT"`. -/
theorem normalize_country_atlantis_refuted :
    normalize_country "Atlantis" ≠ "Atlantis" ∧ normalize_country "Atlantis" = "AT" := by
  constructor
  · decide
  · decide

/-- C1 (amended): `normalize_country` lowercases and trims; an exact synonym
match returns the mapped code (`"Deutschland" → "DE"`); a trimmed two-letter
alphabetic input is uppercased (`"xy" → "XY"`); otherwise the first table
entry (in table order) whose token is a substring of the input wins
(`"I live in Switzerland" → "CH"`, and `"Atlantis" → "AT"` via the token
`"at"`); if nothing matches, the trimmed original is returned unchanged
(`" zzz " → "zzz"`). -/
theorem normalize_country_claim_amended :
    normalize_country "Deutschland" = "DE" ∧
    normalize_country "xy" = "XY" ∧
    normalize_country "I live in Switzerland" = "CH" ∧
    normalize_country "Atlantis" = "AT" ∧
    normalize_country " zzz " = "zzz" := by
  refine ⟨by decide, by decide, by decide, by decide, by decide⟩

/-- C4: `parse_salary_query` tries its four patterns in priority order,
excising the matched span and trimming: a range match sets both bounds
(`"backend 90k-110k"`); a `>`/`>=` match sets the floor even when a bare
number is also present (`">100k engineer"`); a `<`/`<=` match sets the
ceiling (`"hire <=90k"`); a bare number sets the floor, the excision leaving
the surrounding text concatenated with a gap (`"pay 120k now"`); with no
match the (stripped) text is returned with both bounds absent. -/
theorem parse_salary_query_claim :
    parse_salary_query "backend 90k-110k" = ("backend", some 90000, some 110000) ∧
    parse_salary_query ">100k engineer" = ("engineer", some 100000, none) ∧
    parse_salary_query "hire <=90k" = ("hire", none, some 90000) ∧
    parse_salary_query "pay 120k now" = ("pay  now", some 120000, none) ∧
    parse_salary_query "  hello  " = ("hello", none, none) := by
  refine ⟨by decide, by decide, by decide, by decide, by decide⟩

/-- C7: `parse_money_numbers` yields the cleaned values of the digit-initiated
money spans in text order: `"80k-120k" → [80000, 120000]` (trailing `k`
multiplies by 1000), `"1.200" → [1200]` (periods are thousands separators),
and a span whose cleaned residue is not purely digits (here a tab survives
the cleaning) is silently discarded: `"12\t34" → []`. -/
theorem parse_money_numbers_claim :
    parse_money_numbers "80k-120k" = [80000, 120000] ∧
    parse_money_numbers "1.200" = [1200] ∧
    parse_money_numbers "12\t34" = [] := by
  refine ⟨by decide, by decide, by decide⟩

/-- C10: `normalize_title` is not idempotent: the synonym rule
`"software eng" → "software engineer"` is an unguarded substring replacement,
so `normalize_title "software engineer" = "software engineerineer"`, and a
second application expands it again. -/
theorem normalize_title_not_idempotent_claim :
    normalize_title "software engineer" = "software engineerineer" ∧
    normalize_title (normalize_title "software engineer") ≠
      normalize_title "software engineer" := by
  constructor
  · decide
  · decide

/-- C2 (counterexample): the claim's salary test uses the reference-derived
range whenever the listing's own pair is not truthy, with no truthiness
condition on the reference pair; the code (app.py line 307) additionally
requires `ref_salary_min or ref_salary_max` to be truthy.  A listing with
`ref_salary_min = 0` and everything else absent is excluded by the code for
any ceiling query, while the claim's test includes it. -/
theorem salary_test_claim_refuted :
    salaryOk { ref_salary_min := some 0 } none (some 1000) = false ∧
    claimSalaryPass { ref_salary_min := some 0 } none (some 1000) = true := by
  constructor
  · decide
  · decide

/-- C2 (amended): for every listing and query, the code's salary test equals
the claim's test once the effective range is taken as the code computes it —
the listing's own pair when either own field is truthy, else the reference
pair when either reference field is truthy, else entirely absent; fill an
absent low end with 0 and an absent high end with the low end, and pass iff
high ≥ floor (when given) and low ≤ ceiling (when given).  In particular a
listing with no own salary and reference range 3000–6000 is included by the
filter at floor 4000 and excluded at floor 7000. -/
theorem salary_test_claim_amended :
    (∀ (j : Job) (sfloor sceiling : Option Int),
      salaryOk j sfloor sceiling = specSalaryPass j sfloor sceiling) ∧
    filter_jobs [{ ref_salary_min := some 3000, ref_salary_max := some 6000 }] "" ""
      (some 4000) none =
      [{ ref_salary_min := some 3000, ref_salary_max := some 6000 }] ∧
    filter_jobs [{ ref_salary_min := some 3000, ref_salary_max := some 6000 }] "" ""
      (some 7000) none = [] := by
  refine ⟨?_, by decide, by decide⟩
  intro j sfloor sceiling
  unfold salaryOk specSalaryPass
  rcases hr : job_effective_salary_range j with ⟨lo, hi⟩
  cases sfloor <;> cases sceiling <;> cases lo <;> cases hi <;>
    simp [hr, ← decide_not, not_lt]

/-- C3: building the reference index from a row sequence, the per-(city,
country) entry is the one of the LAST row with that (lowercased, stripped)
city and country — insert-overwrite semantics — while the per-country
fallback entry keyed `(none, country)` is the one of the FIRST row with that
non-empty country — `setdefault` semantics.  On the claim's example rows
(Berlin/DE median 6000, then empty-city/DE median 5000), the lookup of
`("berlin","de")` yields median 6000 and the lookup of `("munich","de")`
falls back to the country entry, also median 6000 (from the first DE row). -/
theorem read_salary_reference_claim :
    (∀ (rows : List SalaryRow) (c k : String), k ≠ "" →
      lookupA (read_salary_reference rows) (some c, k) =
        (rows.reverse.find?
          (fun r => decide (rowCity r = c ∧ rowCountry r = k))).map cityEntry) ∧
    (∀ (rows : List SalaryRow) (k : String),
      lookupA (read_salary_reference rows) (none, k) =
        (rows.find? (fun r => decide (rowCountry r = k ∧ k ≠ ""))).map fallbackEntry) ∧
    (lookup_ref (read_salary_reference berlinRows) "berlin" "de").map (·.median) =
      some (some 6000) ∧
    (lookup_ref (read_salary_reference berlinRows) "munich" "de").map (·.median) =
      some (some 6000) := by
  refine ⟨?_, ?_, by decide, by decide⟩
  · intro rows c k hk
    simpa [lookupA] using lookupA_foldl_city rows [] c k hk
  · intro rows k
    simpa [lookupA] using lookupA_foldl_fallback rows [] k

/-- C3 witness: the first conjunct of `read_salary_reference_claim` applied to
the example rows at city `"berlin"`, country `"de"`. -/
theorem read_salary_reference_claim_witness :
    ("de" : String) ≠ "" ∧
    lookupA (read_salary_reference berlinRows) (some "berlin", "de") =
      (berlinRows.reverse.find?
        (fun r => decide (rowCity r = "berlin" ∧ rowCountry r = "de"))).map cityEntry :=
  ⟨by decide, read_salary_reference_claim.1 berlinRows "berlin" "de" (by decide)⟩

/-- C6: `filter_jobs` is a stable filter — its output is a sublist of its
input, preserving relative order — and it is idempotent: filtering an
already-filtered list with the same query changes nothing. -/
theorem filter_jobs_stable_idempotent_claim :
    ∀ (rows : List Job) (title_q country_q : String) (smin smax : Option Int),
      List.Sublist (filter_jobs rows title_q country_q smin smax) rows ∧
      filter_jobs (filter_jobs rows title_q country_q smin smax) title_q country_q
          smin smax =
        filter_jobs rows title_q country_q smin smax := by
  intro rows tq cq smin smax
  refine ⟨List.filter_sublist rows, ?_⟩
  unfold filter_jobs
  rw [List.filter_filter]
  simp

/-- C8: the filter's title test passes iff the normalized query is empty, or
every token of the normalized query (maximal runs of word-or-plus characters
of its lowercase form) occurs as a substring of the lowercased concatenation
of the listing's title, company and description. -/
theorem title_test_claim :
    ∀ (title_q : String) (r : Job),
      titleOk (normalize_title title_q) r = true ↔
        (normalize_title title_q = "" ∨
          ∀ tok ∈ py_tokens (normalize_title title_q),
            tok <:+: (pyLower (r.title ++ " " ++ r.company ++ " " ++ r.description)).toList) := by
  intro title_q r
  by_cases h : normalize_title title_q = ""
  · simp [titleOk, h]
  · simp [titleOk, fuzzy_match, h, List.all_eq_true, substrB_iff]

/-- C9: enrichment with an empty reference index is the identity; a listing
whose lowercased (city, country) finds no entry (exact key first, then the
country fallback) is left unmodified; and a listing whose lookup finds an
entry gets `ref_median`, `ref_min`, `ref_currency`, `ref_match_label`
attached, with `ref_salary_min = ref_min` and `ref_salary_max = ref_median`
(the "max" alias is the median). -/
theorem enrich_claim :
    (∀ rows : List Job, enrich_with_salary_reference [] rows = rows) ∧
    (∀ (m : RefMap) (j : Job),
      lookup_ref m (pyLower (pstrip j.City)) (pyLower (pstrip j.Country)) = none →
        enrichJob m j = j) ∧
    (∀ (m : RefMap) (j : Job) (e : RefEntry),
      lookup_ref m (pyLower (pstrip j.City)) (pyLower (pstrip j.Country)) = some e →
        enrichJob m j =
          { j with ref_median := e.median, ref_min := e.min,
                   ref_currency := some e.currency, ref_match_label := some e.label,
                   ref_salary_min := e.min, ref_salary_max := e.median }) := by
  refine ⟨fun rows => by simp [enrich_with_salary_reference], ?_, ?_⟩
  · intro m j h
    simp [enrichJob, h]
  · intro m j e h
    simp [enrichJob, h]

/-- C9 witness: `enrich_claim` applied to the index built from the example
rows — an Oslo/NO listing finds no entry and is unchanged; a Berlin/DE
listing gets the Berlin entry attached, with `ref_salary_max` equal to the
median. -/
theorem enrich_claim_witness :
    enrichJob (read_salary_reference berlinRows) { City := "Oslo", Country := "NO" } =
      { City := "Oslo", Country := "NO" } ∧
    enrichJob (read_salary_reference berlinRows) { City := "Berlin", Country := "DE" } =
      { City := "Berlin", Country := "DE", ref_median := some 6000, ref_min := none,
        ref_currency := some "USD", ref_match_label := some "Berlin",
        ref_salary_min := none, ref_salary_max := some 6000 } :=
  ⟨enrich_claim.2.1 (read_salary_reference berlinRows)
      { City := "Oslo", Country := "NO" } (by decide),
   enrich_claim.2.2 (read_salary_reference berlinRows)
      { City := "Berlin", Country := "DE" }
      { median := some 6000, min := none, currency := "USD", label := "Berlin" } (by decide)⟩

theorem sum_min_windows (m n p : Nat) :
    ((List.range m).map (fun i => min p (n - i * p))).sum = min n (m * p) := by
  induction m with
  | zero => simp
  | succ m ih =>
    rw [List.range_succ, List.map_append, List.sum_append, ih, Nat.succ_mul]
    simp only [List.map_cons, List.map_nil, List.sum_cons, List.sum_nil]
    generalize m * p = A
    omega

theorem ceil_div_bounds (n b : Int) (hb : 0 < b) :
    n ≤ ((n + b - 1) / b) * b ∧ ((n + b - 1) / b) * b < n + b := by
  have hdm := Int.ediv_add_emod (n + b - 1) b
  have hr0 : 0 ≤ (n + b - 1) % b := Int.emod_nonneg _ (by omega)
  have hrb : (n + b - 1) % b < b := Int.emod_lt_of_pos _ hb
  constructor
  · nlinarith [hdm, hr0, hrb]
  · nlinarith [hdm, hr0, hrb]

theorem paginate_items_length {α : Type} (items : List α) (i : Nat) (per_page : Int) :
    ((paginate items ((i : Int) + 1) per_page).items).length =
      min (min (max 1 per_page) PER_PAGE_MAX).toNat
        (items.length - i * (min (max 1 per_page) PER_PAGE_MAX).toNat) := by
  have hb0 : (0 : Int) ≤ min (max 1 per_page) PER_PAGE_MAX := by
    have : PER_PAGE_MAX = (100 : Int) := rfl
    omega
  simp only [paginate]
  rw [if_neg (by omega : ¬((i : Int) + 1 < 1))]
  have h1 : ((i : Int) + 1 - 1) * min (max 1 per_page) PER_PAGE_MAX =
      ((i * (min (max 1 per_page) PER_PAGE_MAX).toNat : Nat) : Int) := by
    push_cast [Int.toNat_of_nonneg hb0]
    ring
  rw [h1, Int.toNat_natCast, List.length_take, List.length_drop]

/-- C5: `paginate` clamps the page to at least 1 and the page size into
[1, 100]; its result records the full input length as `total`; its `items`
are the contiguous window `[(page-1)*pageSize, page*pageSize)` of the input
(empty for out-of-range pages, with no error); `pages` is the ceiling of
`total / pageSize` (characterized by `total ≤ pages*pageSize <
total + pageSize`); `has_prev`/`has_next` compare the clamped page against 1
and `pages`; and the pages partition the input — the item counts over pages
`1..pages` sum to the input length. -/
theorem paginate_claim {α : Type} (items : List α) (page per_page : Int) :
    (paginate items page per_page).page = max 1 page ∧
    1 ≤ (paginate items page per_page).per_page ∧
    (paginate items page per_page).per_page ≤ 100 ∧
    (paginate items page per_page).total = (items.length : Int) ∧
    (paginate items page per_page).items =
      (items.drop (((paginate items page per_page).page - 1) *
          (paginate items page per_page).per_page).toNat).take
        (paginate items page per_page).per_page.toNat ∧
    (paginate items page per_page).total ≤
      (paginate items page per_page).pages * (paginate items page per_page).per_page ∧
    (paginate items page per_page).pages * (paginate items page per_page).per_page <
      (paginate items page per_page).total + (paginate items page per_page).per_page ∧
    (paginate items page per_page).has_prev = decide (1 < (paginate items page per_page).page) ∧
    (paginate items page per_page).has_next =
      decide ((paginate items page per_page).page < (paginate items page per_page).pages) ∧
    ((List.range (paginate items page per_page).pages.toNat).map
        (fun (i : Nat) => ((paginate items ((i : Int) + 1) per_page).items).length)).sum =
      items.length := by
  have h100 : PER_PAGE_MAX = (100 : Int) := rfl
  have hb1 : (1 : Int) ≤ min (max 1 per_page) PER_PAGE_MAX := by omega
  have hceil := ceil_div_bounds (items.length : Int) (min (max 1 per_page) PER_PAGE_MAX)
    (by omega)
  refine ⟨?_, by simp only [paginate]; omega, by simp only [paginate]; omega, rfl, rfl,
    ?_, ?_, rfl, rfl, ?_⟩
  · simp only [paginate]
    split <;> omega
  · exact hceil.1
  · exact hceil.2
  · have hfun : (fun i : Nat => ((paginate items ((i : Int) + 1) per_page).items).length) =
        fun i : Nat =>
          min (min (max 1 per_page) PER_PAGE_MAX).toNat
            (items.length - i * (min (max 1 per_page) PER_PAGE_MAX).toNat) :=
      funext (fun i => paginate_items_length items i per_page)
    rw [hfun, sum_min_windows]
    have hq0 : (0 : Int) ≤
        ((items.length : Int) + min (max 1 per_page) PER_PAGE_MAX - 1) /
          min (max 1 per_page) PER_PAGE_MAX :=
      Int.ediv_nonneg (by omega) (by omega)
    have hle : (items.length : Int) ≤
        ((((items.length : Int) + min (max 1 per_page) PER_PAGE_MAX - 1) /
            min (max 1 per_page) PER_PAGE_MAX).toNat *
          (min (max 1 per_page) PER_PAGE_MAX).toNat : Nat) := by
      push_cast [Int.toNat_of_nonneg hq0, Int.toNat_of_nonneg (by omega : (0:Int) ≤ min (max 1 per_page) PER_PAGE_MAX)]
      exact hceil.1
    have := Nat.cast_le (α := Int) |>.mp hle
    simp only [paginate]
    omega

end Catalitium
